import Mathlib

/-!
Verification of the wikicat category-graph index against its specification.

The definitions below are a shallow embedding of the Python sources:
  - wikicat/__init__.py   (Page, CategoryGraph and its query operations)
  - wikicat/viewer/utils.py (bfs_with_backlinks, insert_artificial_root_node)

Modelling conventions:
  - Python dicts are association lists with string keys; lookup returns the
    first matching entry (Python dicts have unique keys, so this coincides
    with dict lookup on every state the program builds).
  - Fallible Python code (raising ValueError / KeyError / AttributeError)
    is modelled with Except PyErr.
  - The mutable degree-count cache (an attribute created on first use) is a
    field of type Option; stateful methods return the updated record.
  - Python object identity (used by the default == of a class that does not
    define eq, like Page) is modelled by an allocation counter in the
    dedicated PageObj refinement used for the path-search component.
-/

/-- Kinds of Python exception raised by the modelled code. -/
inductive PyErr where
  | valueError
  | keyError
  | attributeError
  deriving DecidableEq, Repr

instance exceptDecEq {ε α : Type} [DecidableEq ε] [DecidableEq α] : DecidableEq (Except ε α) :=
  fun x y =>
    match x, y with
    | .ok a, .ok b =>
      if h : a = b then isTrue (by rw [h]) else isFalse (fun hc => h (Except.ok.inj hc))
    | .error a, .error b =>
      if h : a = b then isTrue (by rw [h]) else isFalse (fun hc => h (Except.error.inj hc))
    | .ok _, .error _ => isFalse (fun hc => Except.noConfusion hc)
    | .error _, .ok _ => isFalse (fun hc => Except.noConfusion hc)

/-- Python dict lookup (`d.get(k)` / `d[k]`) on an association list. -/
def dictGet {α : Type} : List (String × α) → String → Option α
  | [], _ => none
  | kv :: rest, k => if kv.1 = k then some kv.2 else dictGet rest k

/-- Accumulator pass implementing Python `str.split()` (no separator
argument): splits on runs of whitespace and never yields empty words.
The accumulator holds the current word reversed. -/
def wordsAux : List Char → List Char → List String
  | [], acc => if acc = [] then [] else [String.mk acc.reverse]
  | c :: cs, acc =>
    if c.isWhitespace then
      (if acc = [] then wordsAux cs [] else String.mk acc.reverse :: wordsAux cs [])
    else wordsAux cs (c :: acc)

/-- Python `s.split()`. -/
def pySplit (s : String) : List String := wordsAux s.data []

/-- Modelled from the spec: wikicat/constants.py is not included under src/.
Section 6 of the spec fixes the raw Wikipedia namespace code of articles to 0
(stored as a string, as all ids and codes are). -/
def ARTICLE : String := "0"

/-- Modelled from the spec: wikicat/constants.py is not included under src/.
Section 6 of the spec fixes the raw Wikipedia namespace code of categories
to 14 (stored as a string). -/
def CATEGORY : String := "14"

/-- The tuple ACCEPTED_NAMESPACES from wikicat/__init__.py. -/
def ACCEPTED_NAMESPACES : List String := ["article", "category"]

/-- Models `unicodedata.normalize("NFC", s)` from the Python standard
library, an external table-driven function whose code is not part of this
repository. It is modelled as the identity, which is exact precisely on
strings already in NFC normal form — in particular on every ASCII string
(ASCII text contains no combining sequences). On non-NFC-normal input the
real function composes characters and this model diverges, so every theorem
whose truth depends on standardization fixing its argument carries an
explicit ASCII restriction on that argument, and all concrete fixtures are
ASCII. -/
def unicodedata_normalize_NFC (s : String) : String := s

/-- Embeds `standardize` from wikicat/__init__.py: replace spaces by underscores
(the pattern is a single character, so `str.replace` is a character map)
and normalize to NFC. -/
def standardize (title : String) : String :=
  unicodedata_normalize_NFC (String.mk (title.data.map (fun c => if c = ' ' then '_' else c)))

/-- Embeds `_code_to_namespace` from wikicat/__init__.py (its argument is first
coerced with `str`, so the model takes a string). -/
def code_to_namespace (code : String) : Except PyErr String :=
  if code = ARTICLE then .ok "article"
  else if code = CATEGORY then .ok "category"
  else if code ∈ ACCEPTED_NAMESPACES then .ok code
  else .error .valueError

/-- The Page class from wikicat/__init__.py (the `namespace` attribute is
called `ns` because `namespace` is a Lean keyword). -/
structure Page where
  id : String
  title : String
  ns : String
  deriving DecidableEq, Repr

/-- Embeds `Page.__init__` with the default `standardize_title=True`: coerce the id
to a string (the model takes a string), convert the namespace (raising
ValueError on an invalid one), standardize the title, and check the
resulting namespace. -/
def Page.make (id title namespace_arg : String) : Except PyErr Page :=
  match code_to_namespace namespace_arg with
  | .error e => .error e
  | .ok ns =>
    if ns ∈ ACCEPTED_NAMESPACES then .ok ⟨id, standardize title, ns⟩
    else .error .valueError

/-- The CategoryGraph index state (wikicat/__init__.py). `title_to_id` is a
dict keyed by the two namespace codes; it is split into its two sub-dicts.
Adjacency values are the whitespace-separated id strings produced by
wikicat/processing/generate_graph.py (a generalized model accepting either
snapshot encoding appears further below). `hidden_categories` is the set
computed at construction; `degree_counts` is the cache attribute, absent
(`none`) until `get_degree_counts` first runs. -/
structure CategoryGraph where
  id_to_title : List (String × String)
  id_to_namespace : List (String × String)
  title_to_id_article : List (String × String)
  title_to_id_category : List (String × String)
  children_to_parents : List (String × String)
  parents_to_children : List (String × String)
  hidden_categories : List String
  degree_counts : Option (List (String × Nat))
  deriving DecidableEq, Repr

/-- Embeds `CategoryGraph.remove_hidden_ids`: filter out hidden ids, preserving
order and duplicates. -/
def CategoryGraph.remove_hidden_ids (cg : CategoryGraph) (ids : List String) : List String :=
  ids.filter (fun i => decide (i ∉ cg.hidden_categories))

/-- Embeds `CategoryGraph.get_page_from_id` on an id already coerced to a string:
ValueError when the id is absent from `id_to_title` or `id_to_namespace`,
otherwise a freshly built Page. -/
def CategoryGraph.get_page_from_id_str (cg : CategoryGraph) (id : String) : Except PyErr Page :=
  match dictGet cg.id_to_title id with
  | none => .error .valueError
  | some title =>
    match dictGet cg.id_to_namespace id with
    | none => .error .valueError
    | some ns => Page.make id title ns

/-- Elements of the lists returned by the query layer: id or title strings,
or Page objects, depending on `return_as`. -/
inductive PyItem where
  | str (s : String)
  | page (p : Page)
  deriving DecidableEq, Repr

/-- Embeds `CategoryGraph.__autoconvert_list_of_ids`: convert a list of ids to the
requested output form, raising ValueError on an invalid `return_as`. -/
def CategoryGraph.autoconvert_list_of_ids (cg : CategoryGraph) (ids : List String)
    (return_as : String) : Except PyErr (List PyItem) :=
  if return_as = "title" then
    ids.mapM (fun i =>
      match dictGet cg.id_to_title i with
      | some t => Except.ok (PyItem.str t)
      | none => Except.error PyErr.keyError)
  else if return_as = "id" then .ok (ids.map PyItem.str)
  else if return_as = "page" then
    ids.mapM (fun i => (cg.get_page_from_id_str i).map PyItem.page)
  else .error .valueError

/-- Core of `CategoryGraph.get_parents` once the page id is resolved:
`self.children_to_parents.get(page_id, "").split()`, then hidden filtering
unless `include_hidden`. -/
def CategoryGraph.get_parents_ids (cg : CategoryGraph) (page_id : String)
    (include_hidden : Bool) : List String :=
  let child_ids := pySplit ((dictGet cg.children_to_parents page_id).getD "")
  if include_hidden then child_ids else cg.remove_hidden_ids child_ids

/-- Core of `CategoryGraph.get_children` once the page id is resolved. -/
def CategoryGraph.get_children_ids (cg : CategoryGraph) (page_id : String)
    (include_hidden : Bool) : List String :=
  let parent_ids := pySplit ((dictGet cg.parents_to_children page_id).getD "")
  if include_hidden then parent_ids else cg.remove_hidden_ids parent_ids

/-- Embeds `CategoryGraph.get_parents` with an id selector and a `return_as` form. -/
def CategoryGraph.get_parents_of_id (cg : CategoryGraph) (page_id : String)
    (include_hidden : Bool) (return_as : String) : Except PyErr (List PyItem) :=
  cg.autoconvert_list_of_ids (cg.get_parents_ids page_id include_hidden) return_as

/-- Embeds `CategoryGraph.get_children` with an id selector and a `return_as` form. -/
def CategoryGraph.get_children_of_id (cg : CategoryGraph) (page_id : String)
    (include_hidden : Bool) (return_as : String) : Except PyErr (List PyItem) :=
  cg.autoconvert_list_of_ids (cg.get_children_ids page_id include_hidden) return_as

/-- The loop body of `CategoryGraph.get_degree_counts`: for every id in
`id_to_title`, the degree is the number of (optionally hidden-filtered)
parents plus children. -/
def CategoryGraph.compute_degree_counts (cg : CategoryGraph) (include_hidden : Bool) :
    List (String × Nat) :=
  cg.id_to_title.map (fun kv =>
    let parents := pySplit ((dictGet cg.children_to_parents kv.1).getD "")
    let children := pySplit ((dictGet cg.parents_to_children kv.1).getD "")
    let parents := if include_hidden then parents else cg.remove_hidden_ids parents
    let children := if include_hidden then children else cg.remove_hidden_ids children
    (kv.1, parents.length + children.length))

/-- Embeds `CategoryGraph.get_degree_counts`: return the cache when `use_cache` and
the attribute exists, otherwise recompute and overwrite the cache. The
updated graph state is returned alongside the result. -/
def CategoryGraph.get_degree_counts (cg : CategoryGraph) (include_hidden : Bool)
    (use_cache : Bool) : CategoryGraph × List (String × Nat) :=
  match (if use_cache then cg.degree_counts else none) with
  | some cached => (cg, cached)
  | none =>
    let computed := cg.compute_degree_counts include_hidden
    ({ cg with degree_counts := some computed }, computed)

/-- Embeds `CategoryGraph.rank_page_ids` (with the default `return_as="id"`, under
which the final autoconversion is the identity on the id list). Python's
`sorted` is a stable sort and `reverse=True` reverses the comparisons while
keeping ties in input order, so it is modelled by a stable insertion sort
under the corresponding total preorder on the degree key. The KeyError that
`counts[page_id]` raises inside the sort key for an id without a degree
entry is modelled by the presence check. -/
def CategoryGraph.rank_page_ids (cg : CategoryGraph) (ids : List String) (mode : String)
    (ascending : Bool) (max_pages : Option Nat) : CategoryGraph × Except PyErr (List String) :=
  if mode ≠ "degree" then (cg, .error .valueError)
  else
    let res := cg.get_degree_counts false true
    let counts := res.2
    if ids.all (fun i => (dictGet counts i).isSome) then
      let key := fun i => (dictGet counts i).getD 0
      let ranked :=
        if ascending then List.insertionSort (fun a b => key a ≤ key b) ids
        else List.insertionSort (fun a b => key b ≤ key a) ids
      (res.1, .ok (match max_pages with | some m => ranked.take m | none => ranked))
    else (res.1, .error .keyError)

/-- The two valid `direction` arguments of `CategoryGraph.traverse` (any
other string raises ValueError before the traversal starts). -/
inductive Direction where
  | parents
  | children
  deriving DecidableEq, Repr

/-- The `get_neighbors` function selected by `direction` in
`CategoryGraph.traverse`, applied to an id selector. -/
def CategoryGraph.get_neighbors_ids (cg : CategoryGraph) (dir : Direction) (page_id : String)
    (include_hidden : Bool) : List String :=
  match dir with
  | .parents => cg.get_parents_ids page_id include_hidden
  | .children => cg.get_children_ids page_id include_hidden

/-- One pass of the inner `for page_id in lvl_page_ids` loop of
`CategoryGraph.traverse`: returns the ids recorded at this level (in order),
the next frontier (the concatenated neighbor lists of the recorded ids), and
the grown visited set. Neighbors are fetched exactly for the recorded ids,
inside the same not-yet-visited branch. -/
def traverse_level_step (cg : CategoryGraph) (dir : Direction) (include_hidden : Bool) :
    List String → List String → List String × List String × List String
  | [], visited => ([], [], visited)
  | page_id :: rest, visited =>
    if page_id ∈ visited then traverse_level_step cg dir include_hidden rest visited
    else
      let neighbor_ids := cg.get_neighbors_ids dir page_id include_hidden
      let r := traverse_level_step cg dir include_hidden rest (visited ++ [page_id])
      (page_id :: r.1, neighbor_ids ++ r.2.1, r.2.2)

/-- The `for _ in range(level)` loop of `CategoryGraph.traverse`, collecting
the per-level recorded ids (the `flatten=False` output shape; the
`flatten=True` output is its concatenation, since ids are recorded level by
level in order). -/
def traverse_loop (cg : CategoryGraph) (dir : Direction) (include_hidden : Bool) :
    Nat → List String → List String → List (List String)
  | 0, _, _ => []
  | Nat.succ k, lvl_page_ids, visited =>
    let r := traverse_level_step cg dir include_hidden lvl_page_ids visited
    r.1 :: traverse_loop cg dir include_hidden k r.2.1 r.2.2

/-- Embeds `CategoryGraph.traverse` before output conversion: the per-level id
lists, starting from the immediate neighbors of `page` with an empty
visited set. -/
def CategoryGraph.traverse_levels (cg : CategoryGraph) (page : Page) (dir : Direction)
    (level : Nat) (include_hidden : Bool) : List (List String) :=
  traverse_loop cg dir include_hidden level
    (cg.get_neighbors_ids dir page.id include_hidden) []

/-- Embeds `CategoryGraph.traverse` with `flatten=True`: the flat id list converted
to the requested form. -/
def CategoryGraph.traverse_flat (cg : CategoryGraph) (page : Page) (dir : Direction)
    (level : Nat) (include_hidden : Bool) (return_as : String) : Except PyErr (List PyItem) :=
  cg.autoconvert_list_of_ids (cg.traverse_levels page dir level include_hidden).flatten return_as

/-- Embeds `CategoryGraph.traverse` with `flatten=False`: each level converted to
the requested form. -/
def CategoryGraph.traverse_nested (cg : CategoryGraph) (page : Page) (dir : Direction)
    (level : Nat) (include_hidden : Bool) (return_as : String) :
    Except PyErr (List (List PyItem)) :=
  (cg.traverse_levels page dir level include_hidden).mapM
    (fun ids => cg.autoconvert_list_of_ids ids return_as)

/-- A Python scalar that is either a string or an integer, for the
operations whose behavior depends on whether the caller passes the id as an
int or as a str. Ids originate as nonnegative curids. -/
inductive PyScalar where
  | str (s : String)
  | int (n : Nat)
  deriving DecidableEq, Repr

/-- Python `str(x)` on a scalar. -/
def PyScalar.py_str : PyScalar → String
  | .str s => s
  | .int n => toString n

/-- Python `==` between a scalar and a string dict key: `int == str` is
always False in Python (no coercion), `str == str` compares contents. -/
def py_eq_str_key : PyScalar → String → Bool
  | .str s, k => s == k
  | .int _, _ => false

/-- Embeds `CategoryGraph.contains_id`: the membership test `id in self.id_to_title`
compares the argument against the string keys with Python `==`, performing
no coercion. -/
def CategoryGraph.contains_id (cg : CategoryGraph) (id : PyScalar) : Bool :=
  cg.id_to_title.any (fun kv => py_eq_str_key id kv.1)

/-- Embeds `CategoryGraph.get_page_from_id` as called with a scalar: the argument
is coerced with `id = str(id)` before any lookup. -/
def CategoryGraph.get_page_from_id (cg : CategoryGraph) (id : PyScalar) : Except PyErr Page :=
  cg.get_page_from_id_str id.py_str

/-- An adjacency value as found in a raw snapshot: either a
whitespace-separated string of ids or an explicit list of id strings (the
two encodings named by the spec, section 6). -/
inductive AdjVal where
  | str (s : String)
  | list (l : List String)
  deriving DecidableEq, Repr

/-- Python `v.split()` on an adjacency value: a string splits into its
whitespace-separated words; a list object has no `split` attribute, so the
call raises AttributeError. -/
def AdjVal.py_split : AdjVal → Except PyErr (List String)
  | .str s => .ok (pySplit s)
  | .list _ => .error .attributeError

/-- Embeds `CategoryGraph.get_parents` core over a raw snapshot whose
`children_to_parents` values carry either encoding:
`self.children_to_parents.get(page_id, "").split()` then hidden filtering. -/
def get_parents_ids_adj (children_to_parents : List (String × AdjVal))
    (hidden : List String) (page_id : String) (include_hidden : Bool) :
    Except PyErr (List String) :=
  match ((dictGet children_to_parents page_id).getD (.str "")).py_split with
  | .error e => .error e
  | .ok ids => .ok (if include_hidden then ids else ids.filter (fun i => decide (i ∉ hidden)))

/-- Embeds `CategoryGraph.get_children` core over a raw snapshot whose
`parents_to_children` values carry either encoding. -/
def get_children_ids_adj (parents_to_children : List (String × AdjVal))
    (hidden : List String) (page_id : String) (include_hidden : Bool) :
    Except PyErr (List String) :=
  match ((dictGet parents_to_children page_id).getD (.str "")).py_split with
  | .error e => .error e
  | .ok ids => .ok (if include_hidden then ids else ids.filter (fun i => decide (i ∉ hidden)))

/-- The hidden-category set computed by `CategoryGraph.__init__`:
`self.parents_to_children[hidden_id].split()` where `hidden_id` is the id of
the category titled Hidden_categories (KeyError when either lookup fails). -/
def hidden_categories_adj (title_to_id_category : List (String × String))
    (parents_to_children : List (String × AdjVal)) : Except PyErr (List String) :=
  match dictGet title_to_id_category "Hidden_categories" with
  | none => .error .keyError
  | some hidden_id =>
    match dictGet parents_to_children hidden_id with
    | none => .error .keyError
    | some v => v.py_split

/-- The loop body of `CategoryGraph.get_degree_counts` over a raw snapshot
whose adjacency values carry either encoding. -/
def degree_counts_adj (ids : List String) (children_to_parents : List (String × AdjVal))
    (parents_to_children : List (String × AdjVal)) (hidden : List String)
    (include_hidden : Bool) : Except PyErr (List (String × Nat)) :=
  ids.mapM (fun i => do
    let parents ← ((dictGet children_to_parents i).getD (.str "")).py_split
    let children ← ((dictGet parents_to_children i).getD (.str "")).py_split
    let parents := if include_hidden then parents else parents.filter (fun x => decide (x ∉ hidden))
    let children := if include_hidden then children else children.filter (fun x => decide (x ∉ hidden))
    pure (i, parents.length + children.length))

/-- A Page object together with its Python object identity, for the code
paths that compare pages with `==`. Page defines no `__eq__`, so `==` falls
back to `object.__eq__`, which is identity. Every construction of a Page
allocates a fresh object, modelled by a strictly increasing counter. -/
structure PageObj where
  objId : Nat
  pid : String
  title : String
  ns : String
  deriving DecidableEq, Repr

/-- Python `==` on two Page objects: object identity. -/
def pyPageEq (p q : PageObj) : Bool := p.objId == q.objId

/-- Embeds `CategoryGraph.get_page_from_id` building an identity-carrying PageObj:
the returned page is a fresh allocation. -/
def CategoryGraph.get_page_from_id_obj (cg : CategoryGraph) (id : String) (ctr : Nat) :
    Except PyErr (PageObj × Nat) :=
  match dictGet cg.id_to_title id with
  | none => .error .valueError
  | some title =>
    match dictGet cg.id_to_namespace id with
    | none => .error .valueError
    | some nscode =>
      match code_to_namespace nscode with
      | .error e => .error e
      | .ok ns =>
        if ns ∈ ACCEPTED_NAMESPACES then .ok (⟨ctr, id, standardize title, ns⟩, ctr + 1)
        else .error .valueError

/-- The `return_as="page"` conversion of a list of ids, threading the
allocation counter: each id yields a fresh PageObj. -/
def pages_from_ids (cg : CategoryGraph) : List String → Nat → Except PyErr (List PageObj × Nat)
  | [], ctr => .ok ([], ctr)
  | i :: rest, ctr =>
    match cg.get_page_from_id_obj i ctr with
    | .error e => .error e
    | .ok (p, ctr1) =>
      match pages_from_ids cg rest ctr1 with
      | .error e => .error e
      | .ok (ps, ctr2) => .ok (p :: ps, ctr2)

/-- Embeds `cg.get_parents(page)` as called by `bfs_with_backlinks`: default
`include_hidden=False` and `return_as="page"`, so the parent ids are
resolved to freshly allocated PageObjs. -/
def CategoryGraph.get_parents_pageobjs (cg : CategoryGraph) (page_id : String) (ctr : Nat) :
    Except PyErr (List PageObj × Nat) :=
  pages_from_ids cg (cg.get_parents_ids page_id false) ctr

/-- The `for parent in cg.get_parents(page)` loop of `bfs_with_backlinks`:
each parent whose id is not yet a backlink key is backlinked to the dequeued
page and appended to the queue. -/
def bfsExpand (page_id : String) : List PageObj → List (String × String) → List PageObj →
    List PageObj × List (String × String)
  | [], backlinks, queue => (queue, backlinks)
  | parent :: rest, backlinks, queue =>
    if (dictGet backlinks parent.pid).isSome then bfsExpand page_id rest backlinks queue
    else bfsExpand page_id rest (backlinks ++ [(parent.pid, page_id)]) (queue ++ [parent])

/-- The while loop of `bfs_with_backlinks`, with fuel (the outer `none`
means the fuel ran out, a model artifact; the loop itself always terminates
because each id is enqueued at most once). The inner value is the Python
result: `some backlinks` when a dequeued page `==` the target, `none` for
the `return None` fall-through when the queue empties. -/
def bfsAux (cg : CategoryGraph) (target : PageObj) :
    Nat → List PageObj → List (String × String) → Nat →
    Option (Except PyErr (Option (List (String × String))))
  | 0, _, _, _ => none
  | Nat.succ _, [], _, _ => some (.ok none)
  | Nat.succ fuel, page :: rest, backlinks, ctr =>
    if pyPageEq page target then some (.ok (some backlinks))
    else
      match cg.get_parents_pageobjs page.pid ctr with
      | .error e => some (.error e)
      | .ok (parents, ctr1) =>
        let qb := bfsExpand page.pid parents backlinks rest
        bfsAux cg target fuel qb.1 qb.2 ctr1

/-- Embeds `bfs_with_backlinks` from wikicat/viewer/utils.py: queue seeded with the
article object, empty backlink map. `ctr` is the next fresh object id. -/
def bfs_with_backlinks (cg : CategoryGraph) (article target : PageObj) (ctr fuel : Nat) :
    Option (Except PyErr (Option (List (String × String)))) :=
  bfsAux cg target fuel [article] [] ctr

/-- A two-page fixture graph: the article with id 1 and title A has the
category with id 2 and title C as its only parent; no hidden categories. -/
def cgC1 : CategoryGraph :=
  { id_to_title := [("1", "A"), ("2", "C")]
    id_to_namespace := [("1", "0"), ("2", "14")]
    title_to_id_article := [("A", "1")]
    title_to_id_category := [("C", "2")]
    children_to_parents := [("1", "2")]
    parents_to_children := [("2", "1")]
    hidden_categories := []
    degree_counts := none }

/-- The article object of `cgC1`, as built by `get_page_from_id`. -/
def articleC1 : PageObj := ⟨0, "1", "A", "article"⟩

/-- The target category object of `cgC1`, built by a separate
`get_page_from_id` call (hence a distinct object identity). -/
def targetC1 : PageObj := ⟨1, "2", "C", "category"⟩

/-- The identity-free Page for the article of `cgC1`. -/
def pageC1 : Page := ⟨"1", "A", "article"⟩

/-- A fixture graph whose adjacency string for page 1 lists the parent id 2
twice. -/
def cgDup : CategoryGraph :=
  { id_to_title := [("1", "A"), ("2", "B")]
    id_to_namespace := [("1", "0"), ("2", "14")]
    title_to_id_article := [("A", "1")]
    title_to_id_category := [("B", "2")]
    children_to_parents := [("1", "2 2")]
    parents_to_children := [("2", "1")]
    hidden_categories := []
    degree_counts := none }

/-- The page of `cgDup` whose parent list contains a duplicate. -/
def pageDup : Page := ⟨"1", "A", "article"⟩

theorem pySplit_empty : pySplit "" = [] := by decide

theorem autoconvert_nil (cg : CategoryGraph) (ra : String)
    (hra : ra = "id" ∨ ra = "title" ∨ ra = "page") :
    cg.autoconvert_list_of_ids [] ra = .ok [] := by
  rcases hra with h | h | h <;> subst h <;> rfl

theorem code_to_namespace_ok (ns r : String) (h : code_to_namespace ns = .ok r) :
    r ∈ ACCEPTED_NAMESPACES := by
  unfold code_to_namespace at h
  split_ifs at h with h1 h2 h3 <;>
    first
      | (cases h; exact h3)
      | (cases h; simp [ACCEPTED_NAMESPACES])
      | exact Except.noConfusion h

theorem any_key_of_dictGet_some {α : Type} (d : List (String × α)) (k : String) (v : α)
    (h : dictGet d k = some v) : d.any (fun kv => k == kv.1) = true := by
  induction d with
  | nil => simp [dictGet] at h
  | cons kv rest ihd =>
    by_cases hk : kv.1 = k
    · simp [List.any_cons, hk]
    · simp only [dictGet] at h
      rw [if_neg hk] at h
      simp [List.any_cons, ihd h]

/-- C3: once the degree cache has been populated by a call with
`include_hidden = b`, any later call with `use_cache = true` returns the
mapping computed under `b`, whatever `include_hidden` it passes, and leaves
the state untouched; only `use_cache = false` recomputes. -/
theorem degree_counts_cache_stale (cg : CategoryGraph) (b bp u : Bool)
    (h0 : cg.degree_counts = none) (hne : bp ≠ b) :
    ((cg.get_degree_counts b u).1.get_degree_counts bp true).2 = cg.compute_degree_counts b ∧
    ((cg.get_degree_counts b u).1.get_degree_counts bp true).1 = (cg.get_degree_counts b u).1 ∧
    ((cg.get_degree_counts b u).1.get_degree_counts bp false).2 =
      ((cg.get_degree_counts b u).1).compute_degree_counts bp := by
  have h1 : cg.get_degree_counts b u =
      ({ cg with degree_counts := some (cg.compute_degree_counts b) },
        cg.compute_degree_counts b) := by
    unfold CategoryGraph.get_degree_counts
    rw [h0, ite_self]
  simp only [h1]
  exact ⟨rfl, rfl, rfl⟩

theorem degree_counts_cache_stale_witness :
    ((cgC1.get_degree_counts true true).1.get_degree_counts false true).2 =
      cgC1.compute_degree_counts true ∧
    ((cgC1.get_degree_counts true true).1.get_degree_counts false true).1 =
      (cgC1.get_degree_counts true true).1 ∧
    ((cgC1.get_degree_counts true true).1.get_degree_counts false false).2 =
      ((cgC1.get_degree_counts true true).1).compute_degree_counts false :=
  degree_counts_cache_stale cgC1 true false true (by decide) (by decide)

/-- C7: an id with no key in `children_to_parents` (respectively
`parents_to_children`) makes `get_parents` (respectively `get_children`)
return the empty list, not an error, for every valid `return_as` form. -/
theorem get_neighbors_absent_id_empty (cg : CategoryGraph) (i j : String) (ih : Bool)
    (ra : String) (hra : ra = "id" ∨ ra = "title" ∨ ra = "page")
    (hp : dictGet cg.children_to_parents i = none)
    (hc : dictGet cg.parents_to_children j = none) :
    cg.get_parents_of_id i ih ra = .ok [] ∧ cg.get_children_of_id j ih ra = .ok [] := by
  constructor
  · have h1 : cg.get_parents_ids i ih = [] := by
      unfold CategoryGraph.get_parents_ids
      rw [hp]
      cases ih <;> simp [pySplit_empty, CategoryGraph.remove_hidden_ids]
    unfold CategoryGraph.get_parents_of_id
    rw [h1]
    exact autoconvert_nil cg ra hra
  · have h1 : cg.get_children_ids j ih = [] := by
      unfold CategoryGraph.get_children_ids
      rw [hc]
      cases ih <;> simp [pySplit_empty, CategoryGraph.remove_hidden_ids]
    unfold CategoryGraph.get_children_of_id
    rw [h1]
    exact autoconvert_nil cg ra hra

theorem get_neighbors_absent_id_empty_witness :
    cgC1.get_parents_of_id "9" false "page" = .ok [] ∧
    cgC1.get_children_of_id "9" false "page" = .ok [] :=
  get_neighbors_absent_id_empty cgC1 "9" "9" false "page"
    (Or.inr (Or.inr rfl)) (by decide) (by decide)

/-- C10: `get_page_from_id` coerces its argument with `str` before lookup
while `contains_id` performs no coercion, so an integer whose decimal form
is an id of the graph resolves to a page, yet `contains_id` is false on the
integer and true on its string form. -/
theorem get_page_coerces_contains_id_does_not (cg : CategoryGraph) (n : Nat)
    (t nscode : String)
    (h1 : dictGet cg.id_to_title (toString n) = some t)
    (h2 : dictGet cg.id_to_namespace (toString n) = some nscode)
    (h3 : ∃ r, code_to_namespace nscode = .ok r) :
    (∃ p : Page, cg.get_page_from_id (.int n) = .ok p ∧ p.id = toString n) ∧
    cg.contains_id (.int n) = false ∧
    cg.contains_id (.str (toString n)) = true := by
  obtain ⟨r, hr⟩ := h3
  refine ⟨⟨⟨toString n, standardize t, r⟩, ?_, rfl⟩, ?_, ?_⟩
  · show cg.get_page_from_id_str (toString n) = _
    unfold CategoryGraph.get_page_from_id_str Page.make
    simp only [h1, h2, hr]
    rw [if_pos (code_to_namespace_ok nscode r hr)]
  · simp [CategoryGraph.contains_id, py_eq_str_key]
  · exact any_key_of_dictGet_some cg.id_to_title (toString n) t h1

theorem get_page_coerces_contains_id_does_not_witness :
    (∃ p : Page, cgC1.get_page_from_id (.int 1) = .ok p ∧ p.id = toString 1) ∧
    cgC1.contains_id (.int 1) = false ∧
    cgC1.contains_id (.str (toString 1)) = true :=
  get_page_coerces_contains_id_does_not cgC1 1 "A" "0" (by decide) (by decide)
    ⟨"article", by decide⟩

/-- C9: Page objects have no structural equality. Two separately constructed
pages (distinct object identities) with identical id, title and namespace
compare unequal under Python `==`, and the target-dequeued test of
`bfs_with_backlinks` therefore does not stop on such a page: the loop
proceeds to expand its parents. -/
theorem page_eq_is_object_identity (p q : PageObj)
    (hobj : p.objId ≠ q.objId) (hid : p.pid = q.pid) (ht : p.title = q.title)
    (hn : p.ns = q.ns) :
    pyPageEq p q = false ∧
    ∀ (cg : CategoryGraph) (fuel ctr : Nat) (rest : List PageObj)
      (backlinks : List (String × String)),
      bfsAux cg q (fuel + 1) (p :: rest) backlinks ctr =
        (match cg.get_parents_pageobjs p.pid ctr with
         | .error e => some (.error e)
         | .ok (parents, ctr1) =>
           let qb := bfsExpand p.pid parents backlinks rest
           bfsAux cg q fuel qb.1 qb.2 ctr1) := by
  have hfalse : pyPageEq p q = false := by
    unfold pyPageEq
    exact beq_eq_false_iff_ne.mpr hobj
  refine ⟨hfalse, ?_⟩
  intro cg fuel ctr rest backlinks
  simp only [bfsAux, hfalse]
  rfl

theorem page_eq_is_object_identity_witness :
    pyPageEq ⟨0, "1", "T", "article"⟩ ⟨1, "1", "T", "article"⟩ = false ∧
    ∀ (cg : CategoryGraph) (fuel ctr : Nat) (rest : List PageObj)
      (backlinks : List (String × String)),
      bfsAux cg ⟨1, "1", "T", "article"⟩ (fuel + 1) (⟨0, "1", "T", "article"⟩ :: rest)
          backlinks ctr =
        (match cg.get_parents_pageobjs (PageObj.pid ⟨0, "1", "T", "article"⟩) ctr with
         | .error e => some (.error e)
         | .ok (parents, ctr1) =>
           let qb := bfsExpand (PageObj.pid ⟨0, "1", "T", "article"⟩) parents backlinks rest
           bfsAux cg ⟨1, "1", "T", "article"⟩ fuel qb.1 qb.2 ctr1) :=
  page_eq_is_object_identity ⟨0, "1", "T", "article"⟩ ⟨1, "1", "T", "article"⟩
    (by decide) rfl rfl rfl

/-- C1: on the fixture graph, the target category is reachable from the
article by one parent step, yet `bfs_with_backlinks` returns the no-path
signal, because the dequeued page holding the target's id is a fresh object
and the `page == target` test compares object identities. -/
theorem bfs_misses_reachable_target :
    bfs_with_backlinks cgC1 articleC1 targetC1 2 5 = some (.ok none) ∧
    cgC1.get_parents_ids articleC1.pid false = [targetC1.pid] ∧
    pyPageEq articleC1 targetC1 = false := by
  refine ⟨by decide, by decide, by decide⟩

/-- C2: adjacency entries stored as explicit lists of id strings make
`get_parents`, `get_children`, the hidden-set construction and the degree
computation raise AttributeError (a Python list has no `split` method),
while the same neighbors encoded as a whitespace-separated string are
returned successfully. -/
theorem list_encoding_raises_attribute_error :
    get_parents_ids_adj [("1", AdjVal.list ["2"])] [] "1" false = .error .attributeError ∧
    get_parents_ids_adj [("1", AdjVal.str "2")] [] "1" false = .ok ["2"] ∧
    get_children_ids_adj [("2", AdjVal.list ["1"])] [] "2" false = .error .attributeError ∧
    get_children_ids_adj [("2", AdjVal.str "1")] [] "2" false = .ok ["1"] ∧
    hidden_categories_adj [("Hidden_categories", "9")] [("9", AdjVal.list ["5"])] =
      .error .attributeError ∧
    hidden_categories_adj [("Hidden_categories", "9")] [("9", AdjVal.str "5")] = .ok ["5"] ∧
    degree_counts_adj ["1"] [("1", AdjVal.list ["2"])] [] [] false = .error .attributeError ∧
    degree_counts_adj ["1"] [("1", AdjVal.str "2")] [] [] false = .ok [("1", 1)] := by
  refine ⟨by decide, by decide, by decide, by decide, by decide, by decide, by decide, by decide⟩

theorem traverse_level_step_visited (cg : CategoryGraph) (dir : Direction) (ih : Bool) :
    ∀ (frontier visited : List String),
      (traverse_level_step cg dir ih frontier visited).2.2 =
        visited ++ (traverse_level_step cg dir ih frontier visited).1 := by
  intro frontier
  induction frontier with
  | nil => intro visited; simp [traverse_level_step]
  | cons p rest ihf =>
    intro visited
    by_cases hp : p ∈ visited
    · simp [traverse_level_step, hp, ihf visited]
    · simp only [traverse_level_step, if_neg hp]
      rw [ihf (visited ++ [p])]
      simp

theorem traverse_level_step_nodup (cg : CategoryGraph) (dir : Direction) (ih : Bool) :
    ∀ (frontier visited : List String),
      (traverse_level_step cg dir ih frontier visited).1.Nodup ∧
      ∀ x ∈ (traverse_level_step cg dir ih frontier visited).1, x ∉ visited := by
  intro frontier
  induction frontier with
  | nil => intro visited; simp [traverse_level_step]
  | cons p rest ihf =>
    intro visited
    by_cases hp : p ∈ visited
    · simpa [traverse_level_step, hp] using ihf visited
    · simp only [traverse_level_step, if_neg hp]
      obtain ⟨hnd, hdis⟩ := ihf (visited ++ [p])
      refine ⟨List.nodup_cons.mpr ⟨fun hmem => ?_, hnd⟩, ?_⟩
      · have := hdis p hmem
        simp at this
      · intro x hx
        rcases List.mem_cons.mp hx with hx | hx
        · subst hx; exact hp
        · intro hv
          exact hdis x hx (List.mem_append_left [p] hv)

theorem traverse_loop_flatten_nodup (cg : CategoryGraph) (dir : Direction) (ih : Bool) :
    ∀ (k : Nat) (frontier visited : List String),
      (traverse_loop cg dir ih k frontier visited).flatten.Nodup ∧
      ∀ x ∈ (traverse_loop cg dir ih k frontier visited).flatten, x ∉ visited := by
  intro k
  induction k with
  | zero => intro frontier visited; simp [traverse_loop]
  | succ k ihk =>
    intro frontier visited
    simp only [traverse_loop, List.flatten_cons]
    obtain ⟨hnd, hdis⟩ := traverse_level_step_nodup cg dir ih frontier visited
    have hvis := traverse_level_step_visited cg dir ih frontier visited
    obtain ⟨hnd2, hdis2⟩ :=
      ihk (traverse_level_step cg dir ih frontier visited).2.1
        (traverse_level_step cg dir ih frontier visited).2.2
    constructor
    · refine List.Nodup.append hnd hnd2 ?_
      intro x hx1 hx2
      have := hdis2 x hx2
      rw [hvis] at this
      exact this (List.mem_append_right _ hx1)
    · intro x hx
      rcases List.mem_append.mp hx with hx | hx
      · exact hdis x hx
      · intro hv
        have := hdis2 x hx
        rw [hvis] at this
        exact this (List.mem_append_left _ hv)

/-- C5: every traversal produces a flattened output without duplicate ids,
and the per-level output lists are pairwise disjoint (an id recorded at one
level never reappears at a later level; since neighbor fetching happens
exactly at recording time, a recorded id is never re-expanded). The visited
set spans the whole traversal. -/
theorem traverse_no_duplicates_no_reexpansion (cg : CategoryGraph) (page : Page)
    (dir : Direction) (level : Nat) (ih : Bool) :
    (cg.traverse_levels page dir level ih).flatten.Nodup ∧
    List.Pairwise List.Disjoint (cg.traverse_levels page dir level ih) := by
  have h := traverse_loop_flatten_nodup cg dir ih level
    (cg.get_neighbors_ids dir page.id ih) []
  exact ⟨h.1, (List.nodup_flatten.mp h.1).2⟩

theorem traverse_level_step_of_nodup (cg : CategoryGraph) (dir : Direction) (ih : Bool) :
    ∀ (frontier visited : List String), frontier.Nodup →
      (∀ x ∈ frontier, x ∉ visited) →
      (traverse_level_step cg dir ih frontier visited).1 = frontier := by
  intro frontier
  induction frontier with
  | nil => intro visited _ _; simp [traverse_level_step]
  | cons p rest ihf =>
    intro visited hnd hdis
    have hp : p ∉ visited := hdis p (List.mem_cons_self p rest)
    simp only [traverse_level_step, if_neg hp]
    rw [ihf (visited ++ [p]) (List.nodup_cons.mp hnd).2]
    intro x hx
    rw [List.mem_append]
    rintro (hv | hv)
    · exact hdis x (List.mem_cons_of_mem p hx) hv
    · simp at hv
      subst hv
      exact (List.nodup_cons.mp hnd).1 hx

/-- C4 (amended): when the parent id list of the page contains no duplicate,
`traverse(page, direction=parents, level=1, flatten=True)` returns exactly
`get_parents` converted to the same `return_as` form. -/
theorem traverse_level_one_equals_get_parents (cg : CategoryGraph) (page : Page)
    (ih : Bool) (ra : String) (h : (cg.get_parents_ids page.id ih).Nodup) :
    cg.traverse_flat page .parents 1 ih ra = cg.get_parents_of_id page.id ih ra := by
  unfold CategoryGraph.traverse_flat CategoryGraph.get_parents_of_id
  have hlv : (cg.traverse_levels page .parents 1 ih).flatten = cg.get_parents_ids page.id ih := by
    unfold CategoryGraph.traverse_levels
    simp only [traverse_loop, List.flatten_cons, List.flatten_nil, List.append_nil]
    have : cg.get_neighbors_ids .parents page.id ih = cg.get_parents_ids page.id ih := rfl
    rw [this]
    exact traverse_level_step_of_nodup cg .parents ih (cg.get_parents_ids page.id ih) [] h
      (fun x _ => List.not_mem_nil x)
  rw [hlv]

theorem traverse_level_one_equals_get_parents_witness :
    cgC1.traverse_flat pageC1 .parents 1 false "page" =
      cgC1.get_parents_of_id pageC1.id false "page" :=
  traverse_level_one_equals_get_parents cgC1 pageC1 false "page" (by decide)

/-- C4 (counterexample): on a graph whose adjacency string lists a parent id
twice, traverse with level 1 deduplicates while get_parents does not, so the
two outputs differ. -/
theorem traverse_level_one_counterexample :
    cgDup.traverse_flat pageDup .parents 1 false "id" ≠
      cgDup.get_parents_of_id pageDup.id false "id" := by
  decide

theorem filter_orderedInsert_pos {α : Type} (r : α → α → Prop) [DecidableRel r] (p : α → Bool)
    (a : α) (ha : p a = true) (hskip : ∀ b, ¬ r a b → p b = false) :
    ∀ l : List α, (List.orderedInsert r a l).filter p = a :: l.filter p := by
  intro l
  induction l with
  | nil => simp [List.orderedInsert, ha]
  | cons b l ihl =>
    by_cases hr : r a b
    · simp [List.orderedInsert, hr, ha]
    · have hpb := hskip b hr
      simp [List.orderedInsert, hr, hpb, ihl]

theorem filter_orderedInsert_neg {α : Type} (r : α → α → Prop) [DecidableRel r] (p : α → Bool)
    (a : α) (ha : p a = false) :
    ∀ l : List α, (List.orderedInsert r a l).filter p = l.filter p := by
  intro l
  induction l with
  | nil => simp [List.orderedInsert, ha]
  | cons b l ihl =>
    by_cases hr : r a b
    · simp [List.orderedInsert, hr, ha]
    · simp [List.orderedInsert, hr, List.filter_cons, ihl]

theorem filter_insertionSort {α : Type} (r : α → α → Prop) [DecidableRel r] (p : α → Bool)
    (hcl : ∀ a b, p a = true → ¬ r a b → p b = false) :
    ∀ l : List α, (List.insertionSort r l).filter p = l.filter p := by
  intro l
  induction l with
  | nil => rfl
  | cons a l ihl =>
    by_cases hpa : p a = true
    · rw [List.insertionSort, filter_orderedInsert_pos r p a hpa (fun b hr => hcl a b hpa hr),
        ihl, List.filter_cons_of_pos hpa]
    · have hpa2 : p a = false := by
        cases hop : p a
        · rfl
        · exact absurd hop hpa
      rw [List.insertionSort, filter_orderedInsert_neg r p a hpa2, ihl,
        List.filter_cons_of_neg (by rw [hpa2]; exact Bool.false_ne_true)]

/-- C6: ranking a list of ids (all carrying a degree entry) sorts it by
degree count with a stable sort: the output is a permutation of the input,
pairwise sorted (highest degree first when `ascending = false`, lowest first
when true), ids of equal degree keep their original relative order (the
filter by any fixed degree value is unchanged), and passing `max_pages`
truncates that same ranking to its first `max_pages` elements. -/
theorem rank_page_ids_stable_sort (cg : CategoryGraph) (ids : List String)
    (ascending : Bool) (m : Nat)
    (h : ∀ i ∈ ids, (dictGet (cg.get_degree_counts false true).2 i).isSome = true) :
    ∃ r0 : List String,
      (cg.rank_page_ids ids "degree" ascending none).2 = .ok r0 ∧
      r0.Perm ids ∧
      (ascending = false →
        r0.Pairwise (fun a b =>
          (dictGet (cg.get_degree_counts false true).2 b).getD 0 ≤
            (dictGet (cg.get_degree_counts false true).2 a).getD 0)) ∧
      (ascending = true →
        r0.Pairwise (fun a b =>
          (dictGet (cg.get_degree_counts false true).2 a).getD 0 ≤
            (dictGet (cg.get_degree_counts false true).2 b).getD 0)) ∧
      (∀ k : Nat,
        r0.filter (fun i => (dictGet (cg.get_degree_counts false true).2 i).getD 0 == k) =
          ids.filter (fun i => (dictGet (cg.get_degree_counts false true).2 i).getD 0 == k)) ∧
      (cg.rank_page_ids ids "degree" ascending (some m)).2 = .ok (List.take m r0) := by
  have hall : ids.all (fun i => (dictGet (cg.get_degree_counts false true).2 i).isSome) = true :=
    List.all_eq_true.mpr h
  cases ascending
  · refine ⟨List.insertionSort
      (fun a b => (dictGet (cg.get_degree_counts false true).2 b).getD 0 ≤
        (dictGet (cg.get_degree_counts false true).2 a).getD 0) ids, ?_, ?_, ?_, ?_, ?_, ?_⟩
    · unfold CategoryGraph.rank_page_ids
      rw [if_neg (by simp), if_pos hall]
      simp
    · exact List.perm_insertionSort _ ids
    · intro _
      haveI ht : IsTotal String (fun a b =>
          (dictGet (cg.get_degree_counts false true).2 b).getD 0 ≤
            (dictGet (cg.get_degree_counts false true).2 a).getD 0) :=
        ⟨fun a b => Nat.le_total _ _⟩
      haveI htr : IsTrans String (fun a b =>
          (dictGet (cg.get_degree_counts false true).2 b).getD 0 ≤
            (dictGet (cg.get_degree_counts false true).2 a).getD 0) :=
        ⟨fun _ _ _ h1 h2 => Nat.le_trans h2 h1⟩
      exact List.sorted_insertionSort _ ids
    · intro hcon
      exact absurd hcon (by simp)
    · intro k
      refine filter_insertionSort _ _ ?_ ids
      intro a b hpa hr
      have hka : (dictGet (cg.get_degree_counts false true).2 a).getD 0 = k := by
        simpa using hpa
      have hlt : (dictGet (cg.get_degree_counts false true).2 a).getD 0 <
          (dictGet (cg.get_degree_counts false true).2 b).getD 0 := Nat.lt_of_not_le hr
      have : (dictGet (cg.get_degree_counts false true).2 b).getD 0 ≠ k := by
        omega
      simpa using this
    · unfold CategoryGraph.rank_page_ids
      rw [if_neg (by simp), if_pos hall]
      simp
  · refine ⟨List.insertionSort
      (fun a b => (dictGet (cg.get_degree_counts false true).2 a).getD 0 ≤
        (dictGet (cg.get_degree_counts false true).2 b).getD 0) ids, ?_, ?_, ?_, ?_, ?_, ?_⟩
    · unfold CategoryGraph.rank_page_ids
      rw [if_neg (by simp), if_pos hall]
      simp
    · exact List.perm_insertionSort _ ids
    · intro hcon
      exact absurd hcon (by simp)
    · intro _
      haveI ht : IsTotal String (fun a b =>
          (dictGet (cg.get_degree_counts false true).2 a).getD 0 ≤
            (dictGet (cg.get_degree_counts false true).2 b).getD 0) :=
        ⟨fun a b => Nat.le_total _ _⟩
      haveI htr : IsTrans String (fun a b =>
          (dictGet (cg.get_degree_counts false true).2 a).getD 0 ≤
            (dictGet (cg.get_degree_counts false true).2 b).getD 0) :=
        ⟨fun _ _ _ h1 h2 => Nat.le_trans h1 h2⟩
      exact List.sorted_insertionSort _ ids
    · intro k
      refine filter_insertionSort _ _ ?_ ids
      intro a b hpa hr
      have hka : (dictGet (cg.get_degree_counts false true).2 a).getD 0 = k := by
        simpa using hpa
      have hlt : (dictGet (cg.get_degree_counts false true).2 b).getD 0 <
          (dictGet (cg.get_degree_counts false true).2 a).getD 0 := Nat.lt_of_not_le hr
      have : (dictGet (cg.get_degree_counts false true).2 b).getD 0 ≠ k := by
        omega
      simpa using this
    · unfold CategoryGraph.rank_page_ids
      rw [if_neg (by simp), if_pos hall]
      simp

theorem rank_page_ids_stable_sort_witness :
    ∃ r0 : List String,
      (cgC1.rank_page_ids ["1", "2"] "degree" false none).2 = .ok r0 ∧
      r0.Perm ["1", "2"] ∧
      (false = false →
        r0.Pairwise (fun a b =>
          (dictGet (cgC1.get_degree_counts false true).2 b).getD 0 ≤
            (dictGet (cgC1.get_degree_counts false true).2 a).getD 0)) ∧
      (false = true →
        r0.Pairwise (fun a b =>
          (dictGet (cgC1.get_degree_counts false true).2 a).getD 0 ≤
            (dictGet (cgC1.get_degree_counts false true).2 b).getD 0)) ∧
      (∀ k : Nat,
        r0.filter (fun i => (dictGet (cgC1.get_degree_counts false true).2 i).getD 0 == k) =
          ["1", "2"].filter
            (fun i => (dictGet (cgC1.get_degree_counts false true).2 i).getD 0 == k)) ∧
      (cgC1.rank_page_ids ["1", "2"] "degree" false (some 1)).2 = .ok (List.take 1 r0) :=
  rank_page_ids_stable_sort cgC1 ["1", "2"] false 1 (by decide)

